import Mathlib

/-!
# IPL information scripts: control-block walk and field extraction

A shallow embedding of the three C programs under `src/iplinfo_scripts`
(`get-single-param.c`, `get-more-params.c`, `iplinfo-wip.c`).

* Struct declarations are data (`StructDecl`); member offsets are computed from
  them by the usual C layout rule (each member at the next multiple of its
  alignment), for a target described by its pointer size and alignment.
* Memory is a byte image `Mem`; a pointer load reads `ptrSize` bytes, most
  significant byte first (z/Architecture is big-endian).
* The chain walks record every pointer load they perform (`Walk.loads`).
* The C library calls the programs make (`printf("%s")`, `strcpy`, `memset`,
  `memcpy`) follow ISO C; scans for a terminator take a step bound.
* Addresses are natural numbers and address arithmetic does not wrap (C leaves
  pointer overflow undefined); the root block, the PSA, is at address 0.
-/

namespace Iplinfo

/-! ## C object layout -/

/-- The two member types the sources use: `char name[n]` and a struct pointer. -/
inductive CType where
  | chars (n : Nat)
  | pointer
deriving DecidableEq

/-- One member of a struct declaration. -/
structure Field where
  name : String
  type : CType

/-- A struct declaration: its members in declaration order. -/
abbrev StructDecl := List Field

/-- What the layout depends on: size and alignment of a data pointer. -/
structure Target where
  ptrSize : Nat
  ptrAlign : Nat

/-- The 31-bit z/OS data model: 4-byte pointers on 4-byte boundaries. -/
def zos31 : Target := ⟨4, 4⟩

/-- A target whose pointers are `ps` bytes wide and naturally aligned. -/
def naturalTarget (ps : Nat) : Target := ⟨ps, ps⟩

/-- A target whose pointers are `ps` bytes wide and need no alignment (packed). -/
def packedTarget (ps : Nat) : Target := ⟨ps, 1⟩

def CType.size (T : Target) : CType → Nat
  | .chars n => n
  | .pointer => T.ptrSize

def CType.align (T : Target) : CType → Nat
  | .chars _ => 1
  | .pointer => T.ptrAlign

/-- Round `x` up to the next multiple of `a`. -/
def alignUp (x a : Nat) : Nat :=
  if a = 0 then x else (x + (a - 1)) / a * a

/-- Offset of member `n`, the members of `s` being laid out from position `pos`. -/
def offsetFrom (T : Target) (pos : Nat) : StructDecl → String → Option Nat
  | [], _ => none
  | f :: fs, n =>
    let o := alignUp pos (f.type.align T)
    if f.name = n then some o else offsetFrom T (o + f.type.size T) fs n

/-- The C `offsetof(s, n)`; `none` when `s` has no member `n`. -/
def offsetof? (T : Target) (s : StructDecl) (n : String) : Option Nat :=
  offsetFrom T 0 s n

/-- The C `offsetof(s, n)` for a member that exists. -/
def offsetof (T : Target) (s : StructDecl) (n : String) : Nat :=
  (offsetof? T s n).getD 0

/-- The C `sizeof(x->n)` for member `n` of `s`. -/
def sizeofMember (T : Target) (s : StructDecl) (n : String) : Nat :=
  match s.find? (fun f => f.name = n) with
  | some f => f.type.size T
  | none => 0

/-- Position just after the last member (before tail padding). -/
def endOfMembers (T : Target) (pos : Nat) : StructDecl → Nat
  | [] => pos
  | f :: fs => endOfMembers T (alignUp pos (f.type.align T) + f.type.size T) fs

/-- Alignment of the struct: the largest member alignment. -/
def structAlign (T : Target) (s : StructDecl) : Nat :=
  s.foldl (fun a f => max a (f.type.align T)) 1

/-- The C `sizeof(struct s)`. -/
def sizeofStruct (T : Target) (s : StructDecl) : Nat :=
  alignUp (endOfMembers T 0 s) (structAlign T s)

/-! ## Memory and pointer loads -/

/-- A memory image: the byte stored at each address (taken modulo 256). -/
abbrev Mem := Nat → Nat

def readByte (m : Mem) (a : Nat) : Nat := m a % 256

/-- The `n` bytes at `a`, read as one big-endian unsigned number. -/
def readBE (m : Mem) (a : Nat) : Nat → Nat
  | 0 => 0
  | n + 1 => readByte m a * 256 ^ n + readBE m (a + 1) n

/-- Load of a pointer-typed object stored at address `a`. -/
def loadPtr (T : Target) (m : Mem) (a : Nat) : Nat := readBE m a T.ptrSize

/-- The `ptr(mem, a)` of the 4-byte-pointer setting. -/
def ptr (m : Mem) (a : Nat) : Nat := loadPtr zos31 m a

/-- The `n` bytes stored from address `a` on. -/
def readBytes (m : Mem) (a n : Nat) : List Nat :=
  (List.range n).map (fun i => readByte m (a + i))

/-- A pointer value in the course of a walk, with the addresses of the pointer
loads performed so far (oldest first). -/
structure Walk where
  loads : List Nat
  addr : Nat

/-- A pointer initialised with the constant `a`: nothing is loaded. -/
def Walk.const (a : Nat) : Walk := ⟨[], a⟩

/-- The rvalue `p->f` for a pointer member `f` of `s`: one pointer load at
`p + offsetof(s, f)`. -/
def Walk.arrow (T : Target) (m : Mem) (s : StructDecl) (f : String) (p : Walk) : Walk :=
  ⟨p.loads ++ [p.addr + offsetof T s f], loadPtr T m (p.addr + offsetof T s f)⟩

/-- The rvalue `p->f` for an array member `f` of `s`: the array decays to the
address of its first byte, nothing is loaded. -/
def Walk.member (T : Target) (s : StructDecl) (f : String) (p : Walk) : Walk :=
  ⟨p.loads, p.addr + offsetof T s f⟩

/-! ## The C library calls the programs make -/

/-- The string a `char *` equal to `a` designates: the bytes before the first
nul byte at or after `a`. At most `fuel` bytes are examined; `none` when none
of them is nul. -/
def cstring (m : Mem) (a : Nat) : Nat → Option (List Nat)
  | 0 => none
  | fuel + 1 =>
    if readByte m a = 0 then some []
    else (cstring m (a + 1) fuel).map (fun s => readByte m a :: s)

/-- The value of the character constant for a line feed in the execution
character set (EBCDIC code page 1047, the z/OS default). -/
def newline : Nat := 0x15

/-- Output of `printf("%s\n", p)`: the string at `p`, then a line feed. -/
def printf_s_nl (m : Mem) (p : Nat) (fuel : Nat) : Option (List Nat) :=
  (cstring m p fuel).map (fun s => s ++ [newline])

/-- The string held by a byte array, scanned from its first byte; `none` when
the array holds no nul byte (the scan would leave the array). -/
def cstringOfBytes : List Nat → Option (List Nat)
  | [] => none
  | b :: bs => if b = 0 then some [] else (cstringOfBytes bs).map (fun s => b :: s)

/-- Storage of an automatic object and of what lies after it, indexed from the
first byte of the object. -/
abbrev Frame := Nat → Nat

/-- Store the bytes `bs` at indices `i`, `i + 1`, ... of the frame. -/
def storeBytes (f : Frame) (i : Nat) : List Nat → Frame
  | [] => f
  | b :: bs => storeBytes (fun j => if j = i then b else f j) (i + 1) bs

/-- The bytes `strcpy(dst, src)` stores from `dst` on: the string at `src` and
its terminating nul. -/
def strcpy_stores (m : Mem) (src : Nat) (fuel : Nat) : Option (List Nat) :=
  (cstring m src fuel).map (fun s => s ++ [0])

/-- The call `memset(buf, c, n)` on a byte array. -/
def memset (buf : List Nat) (c n : Nat) : List Nat :=
  List.replicate (min n buf.length) (c % 256) ++ buf.drop n

/-- The call `memcpy(buf, src, n)` on a byte array, `src` given by its bytes. -/
def memcpy (buf src : List Nat) (n : Nat) : List Nat :=
  src.take n ++ buf.drop n

/-! ## get-single-param.c -/

namespace GetSingleParam

def struct_psa : StructDecl :=
  [⟨"psastuff", .chars 16⟩, ⟨"psacvt", .pointer⟩]

def struct_cvt : StructDecl :=
  [⟨"cvtstuff", .chars 140⟩, ⟨"cvtecvt", .pointer⟩]

def struct_ecvt : StructDecl :=
  [⟨"ecvtstuff", .chars 392⟩, ⟨"ecvtipa", .pointer⟩]

def struct_ipa : StructDecl :=
  [⟨"ipastuff", .chars 20⟩, ⟨"IPALOADS", .chars 2⟩, ⟨"_0_ipastuff", .chars 26⟩,
   ⟨"IPALPDSN", .chars 44⟩, ⟨"IPALPDDV", .chars 4⟩]

def my_ipa_walk (T : Target) (m : Mem) : Walk :=
  let psa := Walk.const 0
  let cvt := psa.arrow T m struct_psa "psacvt"
  let ecvt := cvt.arrow T m struct_cvt "cvtecvt"
  let ipa := ecvt.arrow T m struct_ecvt "ecvtipa"
  ipa

def my_ipa (T : Target) (m : Mem) : Nat := (my_ipa_walk T m).addr

def getParam_walk (T : Target) (m : Mem) : Walk :=
  (my_ipa_walk T m).member T struct_ipa "IPALPDSN"

def getParam (T : Target) (m : Mem) : Nat := (getParam_walk T m).addr

/-- The output of `main`: `printf("%s\n", getParam())`. -/
def main (T : Target) (m : Mem) (fuel : Nat) : Option (List Nat) :=
  printf_s_nl m (getParam T m) fuel

end GetSingleParam

/-! ## get-more-params.c -/

namespace GetMoreParams

def struct_psa : StructDecl :=
  [⟨"psastuff", .chars 16⟩, ⟨"psacvt", .pointer⟩]

def struct_cvt : StructDecl :=
  [⟨"cvtstuff", .chars 140⟩, ⟨"cvtecvt", .pointer⟩, ⟨"_buf", .chars 184⟩,
   ⟨"cvtext2", .pointer⟩]

def struct_ecvt : StructDecl :=
  [⟨"ecvtstuff", .chars 392⟩, ⟨"ecvtipa", .pointer⟩]

def struct_ipa : StructDecl :=
  [⟨"ipastuff", .chars 20⟩, ⟨"IPALOADS", .chars 2⟩, ⟨"_0_ipastuff", .chars 26⟩,
   ⟨"IPALPDSN", .chars 44⟩, ⟨"IPALPDDV", .chars 4⟩]

def struct_ext2 : StructDecl :=
  [⟨"_buf_1", .chars 6⟩, ⟨"a", .chars 2⟩]

def struct_iplinfo : StructDecl :=
  [⟨"loadds", .chars 2⟩, ⟨"parmlibdsn", .chars 44⟩]

def my_ext2_walk (T : Target) (m : Mem) : Walk :=
  let psa := Walk.const 0
  let cvt := psa.arrow T m struct_psa "psacvt"
  let ext2 := cvt.arrow T m struct_cvt "cvtext2"
  ext2

def my_ext2 (T : Target) (m : Mem) : Nat := (my_ext2_walk T m).addr

def get_ipa_walk (T : Target) (m : Mem) : Walk :=
  let psa := Walk.const 0
  let cvt := psa.arrow T m struct_psa "psacvt"
  let ecvt := cvt.arrow T m struct_cvt "cvtecvt"
  let ipa := ecvt.arrow T m struct_ecvt "ecvtipa"
  ipa

def get_ipa (T : Target) (m : Mem) : Nat := (get_ipa_walk T m).addr

def getThingy_walk (T : Target) (m : Mem) : Walk :=
  (my_ext2_walk T m).member T struct_ext2 "a"

def getThingy (T : Target) (m : Mem) : Nat := (getThingy_walk T m).addr

def getIPALOADS_walk (T : Target) (m : Mem) : Walk :=
  (get_ipa_walk T m).member T struct_ipa "IPALOADS"

def getIPALOADS (T : Target) (m : Mem) : Nat := (getIPALOADS_walk T m).addr

def getIPALPDSN (T : Target) (m : Mem) : Nat :=
  ((get_ipa_walk T m).member T struct_ipa "IPALPDSN").addr

def getIPALPDDV (T : Target) (m : Mem) : Nat :=
  ((get_ipa_walk T m).member T struct_ipa "IPALPDDV").addr

/-- State of the automatic object `_iplinfo` when `get_iplinfo` returns. -/
structure Snapshot where
  /-- The bytes of `_iplinfo` (indices below `sizeof(struct iplinfo)`) and of
  the storage that follows it. -/
  frame : Frame
  /-- The indices, relative to `&_iplinfo`, the call stored to, in order. -/
  stored : List Nat

/-- The body of `get_iplinfo`: `_iplinfo` is declared without initialiser, so
it starts with the indeterminate contents `init`; then
`strcpy(_iplinfo.loadds, getIPALOADS())`. -/
def get_iplinfo (T : Target) (m : Mem) (init : Frame) (fuel : Nat) : Option Snapshot :=
  let dst := offsetof T struct_iplinfo "loadds"
  match strcpy_stores m (getIPALOADS T m) fuel with
  | none => none
  | some bs => some ⟨storeBytes init dst bs, List.range' dst bs.length⟩

/-- The member `n` of the snapshot: its `sizeof` bytes in the frame. -/
def Snapshot.member (T : Target) (r : Snapshot) (n : String) : List Nat :=
  (List.range (sizeofMember T struct_iplinfo n)).map
    (fun i => r.frame (offsetof T struct_iplinfo n + i))

/-- The output of `main`: `printf("%s\n", getIPALOADS())`. -/
def main (T : Target) (m : Mem) (fuel : Nat) : Option (List Nat) :=
  printf_s_nl m (getIPALOADS T m) fuel

end GetMoreParams

/-! ## iplinfo-wip.c -/

namespace IplinfoWip

def struct_psa : StructDecl :=
  [⟨"psastuff", .chars 16⟩, ⟨"psacvt", .pointer⟩]

def struct_cvt : StructDecl :=
  [⟨"cvtstuff", .chars 140⟩, ⟨"cvtecvt", .pointer⟩, ⟨"_buf", .chars 184⟩,
   ⟨"cvtext2", .pointer⟩]

def struct_ecvt : StructDecl :=
  [⟨"ecvtstuff", .chars 392⟩, ⟨"ecvtipa", .pointer⟩]

def struct_ipa : StructDecl :=
  [⟨"ipastuff", .chars 20⟩, ⟨"IPALOADS", .chars 2⟩, ⟨"_0_ipastuff", .chars 26⟩,
   ⟨"IPALPDSN", .chars 44⟩, ⟨"IPALPDDV", .chars 4⟩]

def struct_ext2 : StructDecl :=
  [⟨"_buf_1", .chars 6⟩, ⟨"a", .chars 2⟩]

def iplinfo : StructDecl :=
  [⟨"loadds", .chars 2⟩, ⟨"parmlibdsn", .chars 44⟩]

def my_ext2_walk (T : Target) (m : Mem) : Walk :=
  let psa := Walk.const 0
  let cvt := psa.arrow T m struct_psa "psacvt"
  let ext2 := cvt.arrow T m struct_cvt "cvtext2"
  ext2

def my_ext2 (T : Target) (m : Mem) : Nat := (my_ext2_walk T m).addr

def get_ipa_walk (T : Target) (m : Mem) : Walk :=
  let psa := Walk.const 0
  let cvt := psa.arrow T m struct_psa "psacvt"
  let ecvt := cvt.arrow T m struct_cvt "cvtecvt"
  let ipa := ecvt.arrow T m struct_ecvt "ecvtipa"
  ipa

def get_ipa (T : Target) (m : Mem) : Nat := (get_ipa_walk T m).addr

def getThingy (T : Target) (m : Mem) : Nat :=
  ((my_ext2_walk T m).member T struct_ext2 "a").addr

def getIPALPDSN (T : Target) (m : Mem) : Nat :=
  ((get_ipa_walk T m).member T struct_ipa "IPALPDSN").addr

def getIPALPDDV (T : Target) (m : Mem) : Nat :=
  ((get_ipa_walk T m).member T struct_ipa "IPALPDDV").addr

/-- The buffer `str` that `getIPALOADS(i)` builds. `i` is the address of an
`iplinfo` object in `m`; `junk` is the indeterminate initial content of the
array `str`, declared with `1 + sizeof(i->loadds)` elements. -/
def getIPALOADS (T : Target) (m : Mem) (i : Nat) (junk : Nat → Nat) : List Nat :=
  let n := 1 + sizeofMember T iplinfo "loadds"
  let str := (List.range n).map junk
  let str := memset str 0 n
  let str := memcpy str
    (readBytes m (i + offsetof T iplinfo "loadds") (sizeofMember T iplinfo "loadds"))
    (sizeofMember T iplinfo "loadds")
  str

/-- The output of `main`, whose body is empty. -/
def main : List Nat := []

end IplinfoWip

/-! ## Concrete memory images -/

/-- The image that holds `bs` from address `a` on and is `m` elsewhere. -/
def place (a : Nat) (bs : List Nat) (m : Mem) : Mem :=
  fun x => if a ≤ x ∧ x < a + bs.length then bs.getD (x - a) 0 else m x

/-- The image whose every byte is zero. -/
def zeroMem : Mem := fun _ => 0

/-- The character codes of a text (ASCII is used for the sample data; the
programs only tell nul from non-nul bytes). -/
def codes (s : String) : List Nat := s.toList.map Char.toNat

/-- A chain PSA (0) to CVT (0x1000) to ECVT (0x2000) to IPA (0x3000); the
bytes `from20` are stored from offset 20 of the IPA on (`IPALOADS` and what
follows it), the bytes `from48` from offset 48 on (`IPALPDSN` and what follows
it) where `from20` does not reach; every other byte is zero. -/
def chainMem (from20 from48 : List Nat) : Mem :=
  place 16 [0, 0, 0x10, 0] <| place (0x1000 + 140) [0, 0, 0x20, 0] <|
  place (0x2000 + 392) [0, 0, 0x30, 0] <| place (0x3000 + 20) from20 <|
  place (0x3000 + 48) from48 zeroMem

/-- An image whose CVT pointer (offset 16 of the PSA) is null. Offset 140 of
the PSA holds 0x2000, offset 392 of that block holds 0x3000, and the text
SYS1.PARMLIB stands at 0x3000 + 48. -/
def nullCvtMem : Mem :=
  place 140 [0, 0, 0x20, 0] <| place (0x2000 + 392) [0, 0, 0x30, 0] <|
  place (0x3000 + 48) (codes "SYS1.PARMLIB") zeroMem

/-- The blank of the sample data. -/
def blank : Nat := 0x20

/-- A frame filled with the byte 0xAA, standing for indeterminate contents. -/
def junkFrame : Frame := fun _ => 0xAA

/-- An image whose `IPALPDSN` holds SYS1.PARMLIB(PARMLIB00) padded with blanks
to 44 bytes, and whose `IPALPDDV` holds 0742. -/
def blankPaddedMem : Mem :=
  chainMem [] (codes "SYS1.PARMLIB(PARMLIB00)" ++ List.replicate 21 blank ++ codes "0742")

/-- An image whose `IPALPDSN` holds SYS1.PARMLIB(PARMLIB00) padded with nul
bytes to 44 bytes, and whose `IPALPDDV` holds 0742. -/
def nulPaddedMem : Mem :=
  chainMem [] (codes "SYS1.PARMLIB(PARMLIB00)" ++ List.replicate 21 0 ++ codes "0742")

/-- An image whose `IPALOADS` holds the two letters LO and is followed by nul
bytes. -/
def loadsMem : Mem := chainMem (codes "LO") []

/-- An image whose `IPALOADS` holds LO and whose following 58 bytes, up to
offset 80 of the IPA, are non-nul as well. -/
def loadsRunOnMem : Mem := chainMem (codes "LO" ++ List.replicate 58 blank) []

/-- An image whose `IPALOADS` holds the letter L and a nul, and whose
`IPALPDSN` holds SYS1.PARMLIB padded with nul bytes. -/
def shortLoadsMem : Mem := chainMem [76, 0] (codes "SYS1.PARMLIB")

/-- An image like `loadsMem` but for the two bytes after `IPALOADS`, which
hold XY. -/
def loadsXYMem : Mem := chainMem (codes "LOXY") []

/-- An image like `blankPaddedMem` but for the 4 bytes of `IPALPDDV`, which
are nul. -/
def blankPaddedAloneMem : Mem :=
  chainMem [] (codes "SYS1.PARMLIB(PARMLIB00)" ++ List.replicate 21 blank)

/-! ## The decoding the specification describes -/

/-- Specification wording (trailing fill/pad bytes): a pad byte is a nul or a
blank. -/
def isPad (b : Nat) : Bool := b == 0 || b == blank

/-- Specification wording: the field bytes trimmed of trailing pad bytes. -/
def trimPad (bs : List Nat) : List Nat := bs.rdropWhile isPad

/-- The field bytes trimmed of trailing nul bytes only. -/
def trimNul (bs : List Nat) : List Nat := bs.rdropWhile (fun b => b == 0)

/-! ## Supporting lemmas -/

theorem readBytes_succ (m : Mem) (a n : Nat) :
    readBytes m a (n + 1) = readByte m a :: readBytes m (a + 1) n := by
  simp only [readBytes, List.range_succ_eq_map, List.map_cons, List.map_map, Nat.add_zero]
  congr 1
  apply List.map_congr_left
  intro i _
  simp only [Function.comp_apply]
  congr 1
  omega

theorem readBytes_length (m : Mem) (a n : Nat) : (readBytes m a n).length = n := by
  simp [readBytes]

/-- A nul at distance `k` with no nul before it ends the scan there. -/
theorem cstring_of_first_nul (m : Mem) (k : Nat) :
    ∀ (a fuel : Nat), readByte m (a + k) = 0 → (∀ i, i < k → readByte m (a + i) ≠ 0) →
      k < fuel → cstring m a fuel = some (readBytes m a k) := by
  induction k with
  | zero =>
    intro a fuel h0 _ hf
    obtain ⟨f, rfl⟩ : ∃ f, fuel = f + 1 := ⟨fuel - 1, by omega⟩
    simp only [Nat.add_zero] at h0
    simp [cstring, h0, readBytes]
  | succ k ih =>
    intro a fuel h0 hne hf
    obtain ⟨f, rfl⟩ : ∃ f, fuel = f + 1 := ⟨fuel - 1, by omega⟩
    have hfirst : readByte m a ≠ 0 := by simpa using hne 0 (by omega)
    have hrest : cstring m (a + 1) f = some (readBytes m (a + 1) k) := by
      apply ih
      · rw [← h0]; congr 1; omega
      · intro i hi
        have := hne (i + 1) (by omega)
        rwa [show a + (i + 1) = a + 1 + i by omega] at this
      · omega
    simp [cstring, hfirst, hrest, readBytes_succ]

/-- What a successful scan returned: the bytes up to the first nul. -/
theorem cstring_some (m : Mem) :
    ∀ (fuel a : Nat) (s : List Nat), cstring m a fuel = some s →
      s.length < fuel ∧ readByte m (a + s.length) = 0 ∧
      (∀ i, i < s.length → readByte m (a + i) ≠ 0) ∧ s = readBytes m a s.length := by
  intro fuel
  induction fuel with
  | zero => intro a s h; simp [cstring] at h
  | succ f ih =>
    intro a s h
    by_cases h0 : readByte m a = 0
    · simp only [cstring, h0, if_true, Option.some.injEq] at h
      subst h
      simp [h0, readBytes]
    · simp only [cstring, h0, if_false, Option.map_eq_some'] at h
      obtain ⟨t, ht, rfl⟩ := h
      obtain ⟨h1, h2, h3, h4⟩ := ih (a + 1) t ht
      refine ⟨by simp; omega, ?_, ?_, ?_⟩
      · rw [← h2]; congr 1; simp; omega
      · intro i hi
        cases i with
        | zero => simpa using h0
        | succ j =>
          have := h3 j (by simpa using hi)
          rwa [show a + 1 + j = a + (j + 1) by omega] at this
      · simp only [List.length_cons, readBytes_succ]
        rw [← h4]

/-- Two successful scans from one address return the same string, whatever
the step bounds. -/
theorem cstring_bound_irrelevant (m : Mem) (a f g : Nat) (s t : List Nat)
    (hs : cstring m a f = some s) (ht : cstring m a g = some t) : s = t := by
  obtain ⟨_, hs0, hsne, hseq⟩ := cstring_some m f a s hs
  obtain ⟨_, ht0, htne, hteq⟩ := cstring_some m g a t ht
  have hlen : s.length = t.length := by
    rcases Nat.lt_trichotomy s.length t.length with h | h | h
    · exact absurd hs0 (htne _ h)
    · exact h
    · exact absurd ht0 (hsne _ h)
  rw [hseq, hteq, hlen]

theorem readBytes_add (m : Mem) (k : Nat) :
    ∀ (a l : Nat), readBytes m a (k + l) = readBytes m a k ++ readBytes m (a + k) l := by
  induction k with
  | zero => intro a l; simp [readBytes]
  | succ k ih =>
    intro a l
    rw [show k + 1 + l = (k + l) + 1 by omega, readBytes_succ, readBytes_succ, ih (a + 1) l,
      show a + 1 + k = a + (k + 1) by omega]
    rfl

/-- Splitting a field that reads as `xs ++ ys`. -/
theorem readBytes_eq_append (m : Mem) (a n : Nat) (xs ys : List Nat)
    (h : readBytes m a n = xs ++ ys) :
    readBytes m a xs.length = xs ∧ readBytes m (a + xs.length) ys.length = ys := by
  have hn : n = xs.length + ys.length := by
    have := congrArg List.length h
    simpa [readBytes_length] using this
  subst hn
  rw [readBytes_add] at h
  exact List.append_inj h (by simp [readBytes_length])

theorem readByte_mem_readBytes (m : Mem) (a n i : Nat) (hi : i < n) :
    readByte m (a + i) ∈ readBytes m a n := by
  simp only [readBytes, List.mem_map, List.mem_range]
  exact ⟨i, hi, rfl⟩

theorem trimNul_append_replicate (name : List Nat) (hname : ∀ b ∈ name, b ≠ 0) (k : Nat) :
    trimNul (name ++ List.replicate k 0) = name := by
  induction k with
  | zero =>
    simp only [List.replicate_zero, List.append_nil, trimNul]
    rw [List.rdropWhile_eq_self_iff]
    intro hl
    have := hname _ (List.getLast_mem hl)
    simpa using this
  | succ k ih =>
    rw [List.replicate_succ', ← List.append_assoc]
    unfold trimNul at ih ⊢
    rw [List.rdropWhile_concat_pos _ _ _ (by simp), ih]

/-- A field holding a nul-free name and then at least one nul: the string at
the start of the field is the name. -/
theorem cstring_of_nul_padded (m : Mem) (a w fuel : Nat) (name : List Nat)
    (hlen : name.length < w) (hname : ∀ b ∈ name, b ≠ 0)
    (hfield : readBytes m a w = name ++ List.replicate (w - name.length) 0)
    (hfuel : name.length < fuel) :
    cstring m a fuel = some name := by
  obtain ⟨h1, h2⟩ := readBytes_eq_append m a w _ _ hfield
  have hnul : readByte m (a + name.length) = 0 := by
    obtain ⟨j, hj⟩ : ∃ j, w - name.length = j + 1 := ⟨w - name.length - 1, by omega⟩
    rw [hj, List.length_replicate, readBytes_succ, List.replicate_succ] at h2
    exact (List.cons.inj h2).1
  have hne : ∀ i, i < name.length → readByte m (a + i) ≠ 0 := by
    intro i hi
    apply hname
    have := readByte_mem_readBytes m a name.length i hi
    rwa [h1] at this
  rw [cstring_of_first_nul m name.length a fuel hnul hne hfuel, h1]

theorem le_alignUp (x a : Nat) : x ≤ alignUp x a := by
  unfold alignUp
  split
  · exact le_refl x
  · rename_i ha
    have hpos : 0 < a := Nat.pos_of_ne_zero ha
    have h1 := Nat.div_add_mod (x + (a - 1)) a
    have h2 := Nat.mod_lt (x + (a - 1)) hpos
    rw [Nat.mul_comm] at h1
    omega

theorem alignUp_one (x : Nat) : alignUp x 1 = x := by
  simp [alignUp]

/-! ## Layout facts -/

theorem cvtext2_offset (T : Target) :
    offsetof T GetMoreParams.struct_cvt "cvtext2"
      = alignUp (alignUp 140 T.ptrAlign + T.ptrSize + 184) T.ptrAlign := by
  simp [offsetof, offsetof?, offsetFrom, GetMoreParams.struct_cvt, CType.align, CType.size,
    alignUp_one]

theorem cvtext2_offset_natural (ps : Nat) :
    offsetof (naturalTarget ps) GetMoreParams.struct_cvt "cvtext2" = 328 ↔ ps = 4 := by
  rw [cvtext2_offset]
  simp only [naturalTarget]
  constructor
  · intro h
    by_contra hne
    rcases Nat.lt_or_ge ps 5 with hlt | hge
    · interval_cases ps
      · simp [alignUp] at h
      · simp [alignUp] at h
      · simp [alignUp] at h
      · revert h; decide
      · exact hne rfl
    · have h1 := le_alignUp 140 ps
      have h2 := le_alignUp (alignUp 140 ps + ps + 184) ps
      omega
  · rintro rfl
    decide

/-- C7: the offsets written in the struct comments are the offsets the struct
declarations give under the C layout rule with 4-byte pointers (`psacvt` 16;
`cvtecvt` 140 and `cvtext2` 328; `ecvtipa` 392; `IPALOADS` 20 = 0x14,
`IPALPDSN` 48 = 0x30, `IPALPDDV` 92 = 0x5c, of widths 2, 44 and 4), in
`get-more-params.c` and in `iplinfo-wip.c` alike. The offset of `cvtext2` is
140 + pointer size + 184 there (and for any pointer size when pointers need no
alignment padding), and for naturally aligned pointers of any size it is 328
exactly when a pointer occupies 4 bytes. -/
theorem struct_comment_offsets :
    (offsetof zos31 GetMoreParams.struct_psa "psacvt" = 16 ∧
     offsetof zos31 GetMoreParams.struct_cvt "cvtecvt" = 140 ∧
     offsetof zos31 GetMoreParams.struct_cvt "cvtext2" = 328 ∧
     offsetof zos31 GetMoreParams.struct_ecvt "ecvtipa" = 392 ∧
     offsetof zos31 GetMoreParams.struct_ipa "IPALOADS" = 20 ∧
     offsetof zos31 GetMoreParams.struct_ipa "IPALPDSN" = 48 ∧
     offsetof zos31 GetMoreParams.struct_ipa "IPALPDDV" = 92) ∧
    (offsetof zos31 IplinfoWip.struct_psa "psacvt" = 16 ∧
     offsetof zos31 IplinfoWip.struct_cvt "cvtecvt" = 140 ∧
     offsetof zos31 IplinfoWip.struct_cvt "cvtext2" = 328 ∧
     offsetof zos31 IplinfoWip.struct_ecvt "ecvtipa" = 392 ∧
     offsetof zos31 IplinfoWip.struct_ipa "IPALOADS" = 20 ∧
     offsetof zos31 IplinfoWip.struct_ipa "IPALPDSN" = 48 ∧
     offsetof zos31 IplinfoWip.struct_ipa "IPALPDDV" = 92) ∧
    ((20 : Nat) = 0x14 ∧ (48 : Nat) = 0x30 ∧ (92 : Nat) = 0x5c) ∧
    (sizeofMember zos31 GetMoreParams.struct_ipa "IPALOADS" = 2 ∧
     sizeofMember zos31 GetMoreParams.struct_ipa "IPALPDSN" = 44 ∧
     sizeofMember zos31 GetMoreParams.struct_ipa "IPALPDDV" = 4) ∧
    offsetof zos31 GetMoreParams.struct_cvt "cvtext2" = 140 + zos31.ptrSize + 184 ∧
    (∀ ps : Nat,
      offsetof (packedTarget ps) GetMoreParams.struct_cvt "cvtext2" = 140 + ps + 184) ∧
    (∀ ps : Nat,
      offsetof (naturalTarget ps) GetMoreParams.struct_cvt "cvtext2" = 328 ↔ ps = 4) := by
  refine ⟨by decide, by decide, by decide, by decide, by decide, ?_, cvtext2_offset_natural⟩
  intro ps
  rw [cvtext2_offset]
  simp [packedTarget, alignUp_one]

/-! ## The chain walks -/

/-- C2: with 4-byte pointers and the root block at address 0, `get_ipa`
returns the address stored at offset 392 of the block whose address is stored
at offset 140 of the block whose address is stored at offset 16 of the root,
and the three pointer loads it performs are exactly those three link fields,
in that order. -/
theorem get_ipa_follows_three_links (m : Mem) :
    GetMoreParams.get_ipa zos31 m = ptr m (ptr m (ptr m (0 + 16) + 140) + 392) ∧
    (GetMoreParams.get_ipa_walk zos31 m).loads
      = [0 + 16, ptr m (0 + 16) + 140, ptr m (ptr m (0 + 16) + 140) + 392] := by
  exact ⟨rfl, rfl⟩

/-- C9: with 4-byte pointers and the root block at address 0, `my_ext2`
returns the address stored at offset 328 of the block whose address is stored
at offset 16 of the root, `getThingy` returns that address plus 6 (the start
of the 2-byte member `a`), and the only pointer loads are those two link
fields: neither the ECVT link nor the IPA link is loaded. -/
theorem getThingy_address (m : Mem) :
    GetMoreParams.my_ext2 zos31 m = ptr m (ptr m 16 + 328) ∧
    GetMoreParams.getThingy zos31 m = ptr m (ptr m 16 + 328) + 6 ∧
    sizeofMember zos31 GetMoreParams.struct_ext2 "a" = 2 ∧
    (GetMoreParams.getThingy_walk zos31 m).loads = [16, ptr m 16 + 328] := by
  exact ⟨rfl, rfl, rfl, rfl⟩

/-- C10: the three variants of the chain walk agree on every target and every
memory image: `my_ipa` (get-single-param.c), `get_ipa` (get-more-params.c) and
`get_ipa` (iplinfo-wip.c) return the same address, and `getParam` and both
`getIPALPDSN` return that address plus 48. Adding `_buf[184]` and `cvtext2`
after `cvtecvt` left the offset of `cvtecvt` unchanged, and `struct ipa` is
the same declaration in the three files. -/
theorem chain_walk_variants_agree (T : Target) (m : Mem) :
    GetSingleParam.my_ipa T m = GetMoreParams.get_ipa T m ∧
    GetMoreParams.get_ipa T m = IplinfoWip.get_ipa T m ∧
    GetSingleParam.getParam T m = GetSingleParam.my_ipa T m + 48 ∧
    GetMoreParams.getIPALPDSN T m = GetMoreParams.get_ipa T m + 48 ∧
    IplinfoWip.getIPALPDSN T m = IplinfoWip.get_ipa T m + 48 ∧
    offsetof T GetSingleParam.struct_cvt "cvtecvt"
      = offsetof T GetMoreParams.struct_cvt "cvtecvt" ∧
    offsetof T GetMoreParams.struct_cvt "cvtecvt"
      = offsetof T IplinfoWip.struct_cvt "cvtecvt" ∧
    GetSingleParam.struct_ipa = GetMoreParams.struct_ipa ∧
    GetMoreParams.struct_ipa = IplinfoWip.struct_ipa := by
  have h48 : ∀ s : StructDecl, s = GetMoreParams.struct_ipa → offsetof T s "IPALPDSN" = 48 := by
    rintro s rfl
    simp [offsetof, offsetof?, offsetFrom, GetMoreParams.struct_ipa, CType.align, CType.size,
      alignUp_one]
  refine ⟨rfl, rfl, ?_, ?_, ?_, rfl, rfl, rfl, rfl⟩
  · show GetSingleParam.my_ipa T m + offsetof T GetSingleParam.struct_ipa "IPALPDSN" = _
    rw [h48 GetSingleParam.struct_ipa rfl]
  · show GetMoreParams.get_ipa T m + offsetof T GetMoreParams.struct_ipa "IPALPDSN" = _
    rw [h48 GetMoreParams.struct_ipa rfl]
  · show IplinfoWip.get_ipa T m + offsetof T IplinfoWip.struct_ipa "IPALPDSN" = _
    rw [h48 IplinfoWip.struct_ipa rfl]

/-! ## The bounded copy of iplinfo-wip.c -/

/-- C8: for every `iplinfo` object (at any address `i` of any memory image,
on any target) and whatever the array `str` held before, the buffer
`getIPALOADS(i)` builds is 3 bytes long: the 2 bytes of `i->loadds` and a
final 0. Read as a nul-terminated string it is the longest nul-free initial
segment of the 2-byte `loadds` member, of length at most 2. -/
theorem getIPALOADS_buffer (T : Target) (m : Mem) (i : Nat) (junk : Nat → Nat) :
    (IplinfoWip.getIPALOADS T m i junk).length = 3 ∧
    IplinfoWip.getIPALOADS T m i junk = [readByte m i, readByte m (i + 1), 0] ∧
    readBytes m (i + offsetof T IplinfoWip.iplinfo "loadds")
      (sizeofMember T IplinfoWip.iplinfo "loadds") = [readByte m i, readByte m (i + 1)] ∧
    cstringOfBytes (IplinfoWip.getIPALOADS T m i junk)
      = some (List.takeWhile (fun b => b ≠ 0) [readByte m i, readByte m (i + 1)]) ∧
    (List.takeWhile (fun b => b ≠ 0) [readByte m i, readByte m (i + 1)]).length ≤ 2 := by
  have hoff : offsetof T IplinfoWip.iplinfo "loadds" = 0 := by
    simp [offsetof, offsetof?, offsetFrom, IplinfoWip.iplinfo, CType.align, alignUp_one]
  have hsz : sizeofMember T IplinfoWip.iplinfo "loadds" = 2 := by
    simp [sizeofMember, IplinfoWip.iplinfo, CType.size]
  have hsrc : readBytes m (i + offsetof T IplinfoWip.iplinfo "loadds")
      (sizeofMember T IplinfoWip.iplinfo "loadds") = [readByte m i, readByte m (i + 1)] := by
    rw [hoff, hsz]
    simp [readBytes, List.range_succ]
  have hbuf : IplinfoWip.getIPALOADS T m i junk = [readByte m i, readByte m (i + 1), 0] := by
    unfold IplinfoWip.getIPALOADS
    rw [hsrc, hsz]
    simp [memset, memcpy, List.range_succ]
  refine ⟨by rw [hbuf]; rfl, hbuf, hsrc, ?_, ?_⟩
  · rw [hbuf]
    by_cases h0 : readByte m i = 0
    · simp [cstringOfBytes, h0, List.takeWhile]
    · by_cases h1 : readByte m (i + 1) = 0
      · simp [cstringOfBytes, h0, h1, List.takeWhile]
      · simp [cstringOfBytes, h0, h1, List.takeWhile]
  · by_cases h0 : readByte m i = 0
    · simp [List.takeWhile, h0]
    · by_cases h1 : readByte m (i + 1) = 0
      · simp [List.takeWhile, h0, h1]
      · simp [List.takeWhile, h0, h1]

/-! ## Null links -/

/-- C1 (counterexample): in an image whose CVT pointer is null the walk does
not fail and does not stop at the null link. `get_ipa` and `my_ipa` go on to
load the ECVT link from address 0 + 140 and the IPA link from offset 392 of
the block found there, return 0x3000 as the IPA address, and `main` extracts
and prints the text standing at offset 48 of that address. -/
theorem null_cvt_link_is_followed :
    ptr nullCvtMem 16 = 0 ∧
    (GetMoreParams.get_ipa_walk zos31 nullCvtMem).loads = [16, 140, 0x2000 + 392] ∧
    (GetSingleParam.my_ipa_walk zos31 nullCvtMem).loads = [16, 140, 0x2000 + 392] ∧
    (GetMoreParams.get_ipa_walk zos31 nullCvtMem).loads ≠ [16] ∧
    GetMoreParams.get_ipa zos31 nullCvtMem = 0x3000 ∧
    GetSingleParam.my_ipa zos31 nullCvtMem = 0x3000 ∧
    GetSingleParam.main zos31 nullCvtMem 16 = some (codes "SYS1.PARMLIB" ++ [newline]) := by
  decide

/-- C1 (amended): the chain walk has no failure path and checks no link; a
null link is followed like any other address. When the CVT pointer is null
the ECVT link is loaded from address 140 and the IPA link from offset 392 of
the block found there; when the ECVT pointer is null the IPA link is loaded
from address 392; when the IPA pointer is null the walk returns 0, the field
addresses handed to extraction are 48 (`getParam`) and 20 (`getIPALOADS`), and
`main` prints the string found there. -/
theorem walk_follows_null_links (m : Mem) :
    (ptr m 16 = 0 →
      (GetMoreParams.get_ipa_walk zos31 m).loads = [16, 140, ptr m 140 + 392] ∧
      (GetSingleParam.my_ipa_walk zos31 m).loads = [16, 140, ptr m 140 + 392] ∧
      GetMoreParams.get_ipa zos31 m = ptr m (ptr m 140 + 392) ∧
      GetSingleParam.my_ipa zos31 m = ptr m (ptr m 140 + 392)) ∧
    (ptr m (ptr m 16 + 140) = 0 →
      (GetMoreParams.get_ipa_walk zos31 m).loads = [16, ptr m 16 + 140, 392] ∧
      (GetSingleParam.my_ipa_walk zos31 m).loads = [16, ptr m 16 + 140, 392] ∧
      GetMoreParams.get_ipa zos31 m = ptr m 392 ∧
      GetSingleParam.my_ipa zos31 m = ptr m 392) ∧
    (ptr m (ptr m (ptr m 16 + 140) + 392) = 0 →
      (GetMoreParams.get_ipa_walk zos31 m).loads.length = 3 ∧
      GetMoreParams.get_ipa zos31 m = 0 ∧
      GetSingleParam.my_ipa zos31 m = 0 ∧
      GetSingleParam.getParam zos31 m = 48 ∧
      GetMoreParams.getIPALOADS zos31 m = 20 ∧
      (∀ fuel, GetSingleParam.main zos31 m fuel = printf_s_nl m 48 fuel) ∧
      (∀ fuel, GetMoreParams.main zos31 m fuel = printf_s_nl m 20 fuel)) := by
  have hl : (GetMoreParams.get_ipa_walk zos31 m).loads
      = [16, ptr m 16 + 140, ptr m (ptr m 16 + 140) + 392] := rfl
  have hl1 : (GetSingleParam.my_ipa_walk zos31 m).loads
      = [16, ptr m 16 + 140, ptr m (ptr m 16 + 140) + 392] := rfl
  have hv : GetMoreParams.get_ipa zos31 m = ptr m (ptr m (ptr m 16 + 140) + 392) := rfl
  have hv1 : GetSingleParam.my_ipa zos31 m = ptr m (ptr m (ptr m 16 + 140) + 392) := rfl
  have hp : GetSingleParam.getParam zos31 m = GetSingleParam.my_ipa zos31 m + 48 := rfl
  have hq : GetMoreParams.getIPALOADS zos31 m = GetMoreParams.get_ipa zos31 m + 20 := rfl
  refine ⟨?_, ?_, ?_⟩
  · intro h
    rw [hl, hl1, hv, hv1, h]
    simp
  · intro h
    rw [hl, hl1, hv, hv1, h]
    simp
  · intro h
    have hp48 : GetSingleParam.getParam zos31 m = 48 := by rw [hp, hv1, h]
    have hq20 : GetMoreParams.getIPALOADS zos31 m = 20 := by rw [hq, hv, h]
    refine ⟨by rw [hl]; rfl, by rw [hv, h], by rw [hv1, h], hp48, hq20, ?_, ?_⟩
    · intro fuel
      unfold GetSingleParam.main
      rw [hp48]
    · intro fuel
      unfold GetMoreParams.main
      rw [hq20]

/-- C1 (witness): the three cases of the amended statement at the all-zero
image, where every link is null. -/
theorem walk_follows_null_links_witness :
    ptr zeroMem 16 = 0 ∧ ptr zeroMem (ptr zeroMem 16 + 140) = 0 ∧
    ptr zeroMem (ptr zeroMem (ptr zeroMem 16 + 140) + 392) = 0 ∧
    (GetMoreParams.get_ipa_walk zos31 zeroMem).loads = [16, 140, ptr zeroMem 140 + 392] ∧
    GetMoreParams.get_ipa zos31 zeroMem = ptr zeroMem 392 ∧
    GetSingleParam.getParam zos31 zeroMem = 48 :=
  ⟨by decide, by decide, by decide,
   ((walk_follows_null_links zeroMem).1 (by decide)).1,
   ((walk_follows_null_links zeroMem).2.1 (by decide)).2.2.1,
   ((walk_follows_null_links zeroMem).2.2 (by decide)).2.2.2.1⟩

/-! ## The parmlib dataset name as printed -/

/-- C3 (counterexample): `IPALPDSN` holds SYS1.PARMLIB(PARMLIB00) padded with
blanks up to its 44 bytes, so the field trimmed of its trailing pad bytes is
that name. The text at `getParam()` / `getIPALPDSN()`, which `main` prints,
is instead the name, the 21 blanks and the 4 bytes of the next field: 48
bytes, more than 44, and not the name. -/
theorem parmlib_blank_pad_not_trimmed :
    readBytes blankPaddedMem (GetSingleParam.getParam zos31 blankPaddedMem) 44
      = codes "SYS1.PARMLIB(PARMLIB00)" ++ List.replicate 21 blank ∧
    trimPad (readBytes blankPaddedMem (GetSingleParam.getParam zos31 blankPaddedMem) 44)
      = codes "SYS1.PARMLIB(PARMLIB00)" ∧
    cstring blankPaddedMem (GetSingleParam.getParam zos31 blankPaddedMem) 64
      = some (codes "SYS1.PARMLIB(PARMLIB00)" ++ List.replicate 21 blank ++ codes "0742") ∧
    cstring blankPaddedMem (GetMoreParams.getIPALPDSN zos31 blankPaddedMem) 64
      = some (codes "SYS1.PARMLIB(PARMLIB00)" ++ List.replicate 21 blank ++ codes "0742") ∧
    GetSingleParam.main zos31 blankPaddedMem 64
      = some (codes "SYS1.PARMLIB(PARMLIB00)" ++ List.replicate 21 blank ++ codes "0742"
          ++ [newline]) ∧
    cstring blankPaddedMem (GetSingleParam.getParam zos31 blankPaddedMem) 64
      ≠ some (codes "SYS1.PARMLIB(PARMLIB00)") ∧
    ¬ (codes "SYS1.PARMLIB(PARMLIB00)" ++ List.replicate 21 blank ++ codes "0742").length
        ≤ 44 := by
  decide

/-- C3 (amended): when the 44-byte `IPALPDSN` field holds a nul-free name
shorter than 44 followed by nul bytes up to the declared width, the text at
`getParam()` / `getIPALPDSN()` is exactly that name for every step bound
above its length, `main` of get-single-param.c prints it followed by a line
feed, the name is the field trimmed of its trailing nul bytes, and its length
is below 44. Blank pad bytes are part of the name: they are printed. -/
theorem parmlib_text_of_nul_padded (m : Mem) (name : List Nat) (fuel : Nat)
    (hlen : name.length < 44) (hname : ∀ b ∈ name, b ≠ 0)
    (hfield : readBytes m (GetSingleParam.getParam zos31 m) 44
      = name ++ List.replicate (44 - name.length) 0)
    (hfuel : name.length < fuel) :
    cstring m (GetSingleParam.getParam zos31 m) fuel = some name ∧
    cstring m (GetMoreParams.getIPALPDSN zos31 m) fuel = some name ∧
    GetSingleParam.main zos31 m fuel = some (name ++ [newline]) ∧
    name = trimNul (readBytes m (GetSingleParam.getParam zos31 m) 44) ∧
    name.length ≤ 44 := by
  have h := cstring_of_nul_padded m _ 44 fuel name hlen hname hfield hfuel
  refine ⟨h, h, ?_, ?_, by omega⟩
  · simp [GetSingleParam.main, printf_s_nl, h]
  · rw [hfield, trimNul_append_replicate name hname]

/-- C3 (witness): the amended statement at the image whose `IPALPDSN` holds
SYS1.PARMLIB(PARMLIB00) padded with nul bytes. -/
theorem parmlib_text_of_nul_padded_witness :
    cstring nulPaddedMem (GetSingleParam.getParam zos31 nulPaddedMem) 64
      = some (codes "SYS1.PARMLIB(PARMLIB00)") ∧
    GetSingleParam.main zos31 nulPaddedMem 64
      = some (codes "SYS1.PARMLIB(PARMLIB00)" ++ [newline]) :=
  have h := parmlib_text_of_nul_padded nulPaddedMem (codes "SYS1.PARMLIB(PARMLIB00)") 64
    (by decide) (by decide) (by decide) (by decide)
  ⟨h.1, h.2.2.1⟩

/-! ## The snapshot builder of get-more-params.c -/

/-- C4 (failing input): `IPALOADS` holds LO, neither byte nul, and a nul
follows. `get_iplinfo` stores 3 bytes from `loadds` on: the 2-byte member and
index 2, the first byte of `parmlibdsn`, which receives the terminator. When
the 58 bytes after `IPALOADS` are non-nul too, it stores 61 bytes: past the
46 bytes of the whole `struct iplinfo`. -/
theorem get_iplinfo_stores_past_loadds :
    readBytes loadsMem (GetMoreParams.getIPALOADS zos31 loadsMem) 2 = codes "LO" ∧
    sizeofMember zos31 GetMoreParams.struct_iplinfo "loadds" = 2 ∧
    sizeofStruct zos31 GetMoreParams.struct_iplinfo = 46 ∧
    (GetMoreParams.get_iplinfo zos31 loadsMem junkFrame 8).map (fun r => r.stored)
      = some [0, 1, 2] ∧
    (GetMoreParams.get_iplinfo zos31 loadsMem junkFrame 8).map
        (fun r => (List.range 4).map r.frame) = some [76, 79, 0, 0xAA] ∧
    (GetMoreParams.get_iplinfo zos31 loadsRunOnMem junkFrame 64).map (fun r => r.stored)
      = some (List.range 61) := by
  decide

/-- C5 (failing input): two pairs of images with the same link fields. The
first pair agrees on the 2 bytes of `IPALOADS` and differs only after them;
`main` of get-more-params.c prints LO for one and LOXY for the other. The
second pair agrees on the 44 bytes of `IPALPDSN` and differs only after them;
`main` of get-single-param.c prints 44 bytes for one and 48 for the other. -/
theorem printed_text_depends_on_following_bytes :
    ((GetMoreParams.get_ipa_walk zos31 loadsMem).loads
        = (GetMoreParams.get_ipa_walk zos31 loadsXYMem).loads ∧
     (GetMoreParams.get_ipa_walk zos31 loadsMem).loads.map (ptr loadsMem)
        = (GetMoreParams.get_ipa_walk zos31 loadsXYMem).loads.map (ptr loadsXYMem) ∧
     GetMoreParams.getIPALOADS zos31 loadsMem = GetMoreParams.getIPALOADS zos31 loadsXYMem ∧
     readBytes loadsMem (GetMoreParams.getIPALOADS zos31 loadsMem) 2
        = readBytes loadsXYMem (GetMoreParams.getIPALOADS zos31 loadsXYMem) 2 ∧
     GetMoreParams.main zos31 loadsMem 64 = some (codes "LO" ++ [newline]) ∧
     GetMoreParams.main zos31 loadsXYMem 64 = some (codes "LOXY" ++ [newline]) ∧
     GetMoreParams.main zos31 loadsMem 64 ≠ GetMoreParams.main zos31 loadsXYMem 64) ∧
    ((GetSingleParam.my_ipa_walk zos31 blankPaddedAloneMem).loads
        = (GetSingleParam.my_ipa_walk zos31 blankPaddedMem).loads ∧
     (GetSingleParam.my_ipa_walk zos31 blankPaddedAloneMem).loads.map (ptr blankPaddedAloneMem)
        = (GetSingleParam.my_ipa_walk zos31 blankPaddedMem).loads.map (ptr blankPaddedMem) ∧
     GetSingleParam.getParam zos31 blankPaddedAloneMem
        = GetSingleParam.getParam zos31 blankPaddedMem ∧
     readBytes blankPaddedAloneMem (GetSingleParam.getParam zos31 blankPaddedAloneMem) 44
        = readBytes blankPaddedMem (GetSingleParam.getParam zos31 blankPaddedMem) 44 ∧
     GetSingleParam.main zos31 blankPaddedAloneMem 64
        = some (codes "SYS1.PARMLIB(PARMLIB00)" ++ List.replicate 21 blank ++ [newline]) ∧
     GetSingleParam.main zos31 blankPaddedMem 64
        = some (codes "SYS1.PARMLIB(PARMLIB00)" ++ List.replicate 21 blank ++ codes "0742"
            ++ [newline]) ∧
     GetSingleParam.main zos31 blankPaddedAloneMem 64
        ≠ GetSingleParam.main zos31 blankPaddedMem 64) := by
  decide

/-- C6 (counterexample): the walk reaches the IPA, `IPALOADS` holds the
string L and `IPALPDSN` holds SYS1.PARMLIB. The snapshot `get_iplinfo` leaves
has `loadds` set from `IPALOADS`, but `parmlibdsn` still holds the 44
indeterminate bytes the object started with, not the bytes of `IPALPDSN`; and
the snapshot type has two members only, none for a device id or an IODF id. -/
theorem get_iplinfo_leaves_parmlibdsn_unset :
    GetMoreParams.get_ipa zos31 shortLoadsMem = 0x3000 ∧
    readBytes shortLoadsMem (GetMoreParams.getIPALPDSN zos31 shortLoadsMem) 44
      = codes "SYS1.PARMLIB" ++ List.replicate 32 0 ∧
    (GetMoreParams.get_iplinfo zos31 shortLoadsMem junkFrame 8).map
        (fun r => (r.stored, r.member zos31 "loadds", r.member zos31 "parmlibdsn"))
      = some ([0, 1], [76, 0], List.replicate 44 0xAA) ∧
    (GetMoreParams.get_iplinfo zos31 shortLoadsMem junkFrame 8).map
        (fun r => r.member zos31 "parmlibdsn")
      ≠ some (readBytes shortLoadsMem (GetMoreParams.getIPALPDSN zos31 shortLoadsMem) 44) ∧
    GetMoreParams.struct_iplinfo.map Field.name = ["loadds", "parmlibdsn"] := by
  decide

/-- C6 (amended): `get_iplinfo` populates `loadds` only. When one of the 2
bytes of `IPALOADS` is nul, the call returns (for every step bound of 2 or
more), it stores inside the 2 bytes of `loadds` only, the string then held by
`loadds` is the string held by `IPALOADS`, and every byte from index 2 on, the
44 bytes of `parmlibdsn` among them, is what the uninitialised object held.
The snapshot type declares the members `loadds` and `parmlibdsn` and no
other. -/
theorem get_iplinfo_sets_loadds_only (m : Mem) (init : Frame) (fuel : Nat)
    (hnul : readByte m (GetMoreParams.getIPALOADS zos31 m) = 0 ∨
      readByte m (GetMoreParams.getIPALOADS zos31 m + 1) = 0)
    (hfuel : 2 ≤ fuel) :
    ∃ r, GetMoreParams.get_iplinfo zos31 m init fuel = some r ∧
      (∀ i ∈ r.stored, i < sizeofMember zos31 GetMoreParams.struct_iplinfo "loadds") ∧
      cstringOfBytes (r.member zos31 "loadds")
        = cstringOfBytes (readBytes m (GetMoreParams.getIPALOADS zos31 m) 2) ∧
      (∀ i, 2 ≤ i → r.frame i = init i) ∧
      r.member zos31 "parmlibdsn" = (List.range 44).map (fun i => init (2 + i)) ∧
      GetMoreParams.struct_iplinfo.map Field.name = ["loadds", "parmlibdsn"] := by
  obtain ⟨f, rfl⟩ : ∃ f, fuel = f + 2 := ⟨fuel - 2, by omega⟩
  have hdst : offsetof zos31 GetMoreParams.struct_iplinfo "loadds" = 0 := by decide
  have hsz : sizeofMember zos31 GetMoreParams.struct_iplinfo "loadds" = 2 := by decide
  have hoff : offsetof zos31 GetMoreParams.struct_iplinfo "parmlibdsn" = 2 := by decide
  have hsz2 : sizeofMember zos31 GetMoreParams.struct_iplinfo "parmlibdsn" = 44 := by decide
  have hsrc : readBytes m (GetMoreParams.getIPALOADS zos31 m) 2
      = [readByte m (GetMoreParams.getIPALOADS zos31 m),
         readByte m (GetMoreParams.getIPALOADS zos31 m + 1)] := by
    simp [readBytes, List.range_succ]
  by_cases h0 : readByte m (GetMoreParams.getIPALOADS zos31 m) = 0
  · refine ⟨⟨storeBytes init 0 [0], [0]⟩, ?_, ?_, ?_, ?_, ?_, by decide⟩
    · simp [GetMoreParams.get_iplinfo, strcpy_stores, cstring, h0, hdst, List.range']
    · intro i hi
      simp only [List.mem_singleton] at hi
      omega
    · rw [hsrc, h0]
      simp [GetMoreParams.Snapshot.member, hsz, hdst, storeBytes, List.range_succ,
        cstringOfBytes]
    · intro i hi
      have : i ≠ 0 := by omega
      simp [storeBytes, this]
    · simp only [GetMoreParams.Snapshot.member, hsz2, hoff, storeBytes]
      apply List.map_congr_left
      intro i _
      simp
  · have h1 : readByte m (GetMoreParams.getIPALOADS zos31 m + 1) = 0 := by
      rcases hnul with h | h
      · exact absurd h h0
      · exact h
    refine ⟨⟨storeBytes init 0 [readByte m (GetMoreParams.getIPALOADS zos31 m), 0], [0, 1]⟩,
      ?_, ?_, ?_, ?_, ?_, by decide⟩
    · simp [GetMoreParams.get_iplinfo, strcpy_stores, cstring, h0, h1, hdst, List.range']
    · intro i hi
      simp only [List.mem_cons, List.mem_singleton, List.not_mem_nil, or_false] at hi
      omega
    · rw [hsrc, h1]
      simp [GetMoreParams.Snapshot.member, hsz, hdst, storeBytes, List.range_succ,
        cstringOfBytes, h0]
    · intro i hi
      have : i ≠ 0 := by omega
      have : i ≠ 1 := by omega
      simp [storeBytes, *]
    · simp only [GetMoreParams.Snapshot.member, hsz2, hoff, storeBytes]
      apply List.map_congr_left
      intro i _
      have : 2 + i ≠ 1 := by omega
      simp [this]

/-- C6 (witness): the amended statement at the image whose `IPALOADS` holds
the letter L and a nul. -/
theorem get_iplinfo_sets_loadds_only_witness :
    ∃ r, GetMoreParams.get_iplinfo zos31 shortLoadsMem junkFrame 8 = some r ∧
      (∀ i ∈ r.stored, i < sizeofMember zos31 GetMoreParams.struct_iplinfo "loadds") ∧
      cstringOfBytes (r.member zos31 "loadds")
        = cstringOfBytes (readBytes shortLoadsMem
            (GetMoreParams.getIPALOADS zos31 shortLoadsMem) 2) ∧
      (∀ i, 2 ≤ i → r.frame i = junkFrame i) ∧
      r.member zos31 "parmlibdsn" = (List.range 44).map (fun i => junkFrame (2 + i)) ∧
      GetMoreParams.struct_iplinfo.map Field.name = ["loadds", "parmlibdsn"] :=
  get_iplinfo_sets_loadds_only shortLoadsMem junkFrame 8 (Or.inr (by decide)) (by decide)

end Iplinfo
